import Mathlib

/-!
Shallow embedding of the tower-defense simulation engine of this repository.

The repository contains two near-duplicate tower-defense implementations in
`src/pages/TowerDefenseGame.tsx`; namespace `TD1` embeds the primary one
(the six-tower / four-map variant, lines 1-1116) and `TD2` the secondary one
(the four-tower / three-map variant, lines 1116-1866).

Conventions of the embedding:
* Coordinates, ranges and speeds are rationals (the source uses JS numbers).
* Every comparison the source makes through `Math.sqrt(s) < c` (resp. `<= c`)
  is embedded in its exact squared form `s < c*c` (resp. `s <= c*c`), which is
  equivalent for nonnegative radicands and keeps the model executable.
* The only use of a square root whose value survives into the state is the
  normalisation of the per-tick movement vector; the embedding is parametric
  in that square-root function (`sq`), and none of the verified properties
  depend on its values.
* React `useState` hooks become fields of a `GameState` record; a functional
  state update `set(prev => f prev)` becomes a pure record update, applied in
  the source order (React applies queued functional updaters sequentially).
* The Supabase session-recording insert is modelled as appending a
  `Recording` to a log field `records`; the connected wallet is the
  `address` field.
* Ghost fields `spentOnTowers`, `spentOnUnlocks`, `earnedRewards` and
  `pendingWaveTimers` instrument the state for the accounting and timer
  properties; they shadow the respective operations and are reset with the
  session, and no operation reads them.
-/

namespace TD1

/-- A 2D point in the playfield coordinate space. -/
structure Point where
  x : ℚ
  y : ℚ
deriving DecidableEq

/-- The six tower types of the primary implementation (`TOWER_TYPES`). -/
inductive TowerType where
  | archer
  | cannon
  | wizard
  | frost
  | barracks
  | tesla
deriving DecidableEq

/-- Static catalog data per tower type (name/icon/colour omitted). -/
structure TowerDef where
  cost : ℤ
  damage : ℤ
  range : ℚ
  fireRate : ℤ
  unlocked : Bool
deriving DecidableEq

/-- The `TOWER_TYPES` catalog of the primary implementation. -/
def TOWER_TYPES : TowerType → TowerDef
  | .archer => ⟨50, 15, 120, 800, true⟩
  | .cannon => ⟨100, 40, 100, 1500, true⟩
  | .wizard => ⟨150, 30, 90, 1200, false⟩
  | .frost => ⟨120, 10, 100, 600, false⟩
  | .barracks => ⟨80, 20, 60, 1000, false⟩
  | .tesla => ⟨200, 60, 80, 2000, false⟩

/-- The five enemy types of the primary implementation. -/
inductive EnemyType where
  | goblin
  | orc
  | troll
  | dragon
  | necromancer
deriving DecidableEq

/-- Base stats per enemy type (the `baseStats` table inside `spawnWave`). -/
structure EnemyBase where
  health : ℤ
  speed : ℚ
  armor : ℤ
  reward : ℤ
deriving DecidableEq

/-- The `baseStats` table of `spawnWave`: `0.7` and similar decimals are the
exact rationals the source literals denote. -/
def baseStats : EnemyType → EnemyBase
  | .goblin => ⟨30, 3/2, 0, 10⟩
  | .orc => ⟨60, 1, 5, 15⟩
  | .troll => ⟨100, 7/10, 10, 25⟩
  | .dragon => ⟨150, 6/5, 15, 40⟩
  | .necromancer => ⟨80, 4/5, 5, 30⟩

/-- The iteration order of `enemyTypes` in `spawnWave`. -/
def enemyTypesList : List EnemyType :=
  [.goblin, .orc, .troll, .dragon, .necromancer]

/-- The four maps of the primary implementation (`MAPS`). -/
inductive MapId where
  | greenlands
  | volcano
  | crystalCave
  | darkCastle
deriving DecidableEq

/-- Static per-map data: wave count and the waypoint path. -/
structure MapDef where
  waves : ℕ
  path : List Point
deriving DecidableEq

/-- The `MAPS` catalog of the primary implementation. -/
def MAPS : MapId → MapDef
  | .greenlands =>
      ⟨10, [⟨0, 180⟩, ⟨120, 180⟩, ⟨120, 80⟩, ⟨280, 80⟩, ⟨280, 280⟩,
            ⟨420, 280⟩, ⟨420, 180⟩, ⟨600, 180⟩]⟩
  | .volcano =>
      ⟨15, [⟨0, 100⟩, ⟨150, 100⟩, ⟨150, 250⟩, ⟨300, 250⟩, ⟨300, 150⟩,
            ⟨450, 150⟩, ⟨450, 300⟩, ⟨600, 300⟩]⟩
  | .crystalCave =>
      ⟨20, [⟨0, 200⟩, ⟨100, 200⟩, ⟨100, 50⟩, ⟨250, 50⟩, ⟨250, 300⟩,
            ⟨400, 300⟩, ⟨400, 100⟩, ⟨550, 100⟩, ⟨550, 200⟩, ⟨600, 200⟩]⟩
  | .darkCastle =>
      ⟨25, [⟨0, 150⟩, ⟨80, 150⟩, ⟨80, 50⟩, ⟨200, 50⟩, ⟨200, 250⟩,
            ⟨350, 250⟩, ⟨350, 100⟩, ⟨500, 100⟩, ⟨500, 300⟩, ⟨600, 300⟩]⟩

/-- The catalog (insertion) order of the map keys, as `Object.keys(MAPS)`
enumerates them in `handleVictory`. -/
def mapOrder : List MapId :=
  [.greenlands, .volcano, .crystalCave, .darkCastle]

/-- The map following `m` in catalog order, as computed by `handleVictory`
from `mapKeys.indexOf(currentMap) + 1` when not already at the last key. -/
def nextMap : MapId → Option MapId
  | .greenlands => some .volcano
  | .volcano => some .crystalCave
  | .crystalCave => some .darkCastle
  | .darkCastle => none

/-- A placed tower (interface `Tower` of the primary implementation). -/
structure Tower where
  id : String
  type : TowerType
  x : ℚ
  y : ℚ
  level : ℕ
  damage : ℤ
  range : ℚ
  fireRate : ℤ
  lastFired : ℤ
deriving DecidableEq

/-- A live enemy (interface `Enemy` of the primary implementation). -/
structure Enemy where
  id : String
  type : EnemyType
  x : ℚ
  y : ℚ
  health : ℤ
  maxHealth : ℤ
  speed : ℚ
  pathIndex : ℕ
  reward : ℤ
  armor : ℤ
deriving DecidableEq

/-- One call to the external Session Recorder (the Supabase insert made by
`handleVictory`): the fields of the emitted summary that the claims mention. -/
structure Recording where
  wallet : String
  result : String
  xpEarned : ℤ
  wave : ℕ
  gold : ℤ
  kills : ℕ
deriving DecidableEq

/-- The full mutable game state: one field per `useState` hook of the
component, plus the session context (`address`), the Session Recorder log
(`records`), the pending `setTimeout` wave-advance callbacks
(`pendingWaveTimers`) and the ghost accounting fields. -/
structure GameState where
  towers : List Tower
  enemies : List Enemy
  gold : ℤ
  lives : ℤ
  wave : ℕ
  isPlaying : Bool
  gameOver : Bool
  victory : Bool
  selectedTower : Option TowerType
  currentMap : MapId
  xpEarned : ℤ
  unlockedTowers : List TowerType
  unlockedMaps : List MapId
  placementMode : Bool
  killCount : ℕ
  totalKills : ℕ
  address : Option String
  records : List Recording
  pendingWaveTimers : ℕ
  spentOnTowers : ℤ
  spentOnUnlocks : ℤ
  earnedRewards : ℤ
deriving DecidableEq

/-- The initial state of a session, from the `useState` initialisers. -/
def initState (address : Option String) : GameState where
  towers := []
  enemies := []
  gold := 250
  lives := 20
  wave := 0
  isPlaying := false
  gameOver := false
  victory := false
  selectedTower := some .archer
  currentMap := .greenlands
  xpEarned := 0
  unlockedTowers := [.archer, .cannon]
  unlockedMaps := [.greenlands]
  placementMode := false
  killCount := 0
  totalKills := 0
  address := address
  records := []
  pendingWaveTimers := 0
  spentOnTowers := 0
  spentOnUnlocks := 0
  earnedRewards := 0

/-- Squared Euclidean distance between two points. -/
def distSq (p q : Point) : ℚ :=
  (p.x - q.x) * (p.x - q.x) + (p.y - q.y) * (p.y - q.y)

/-- The enemy roster produced by `spawnWave` for wave `wave` on path `path`.
`randIdx i` abstracts the i-th draw of `Math.floor(Math.random() * n)`: the
source draws a uniform index in `[0, typeIndex]`, embedded as an arbitrary
natural reduced mod `typeIndex + 1`. -/
def spawnRoster (path : List Point) (wave : ℕ) (randIdx : ℕ → ℕ) : List Enemy :=
  (List.range (wave * 2 + 5)).map fun (i : ℕ) =>
    let typeIndex := min (wave / 3) (enemyTypesList.length - 1)
    let ty := enemyTypesList.getD (randIdx i % (typeIndex + 1)) .goblin
    let stats := baseStats ty
    let p0 := path.headD ⟨0, 0⟩
    { id := "enemy-" ++ toString wave ++ "-" ++ toString i
      type := ty
      x := p0.x - (i : ℚ) * 50
      y := p0.y
      health := stats.health + (wave : ℤ) * 10
      maxHealth := stats.health + (wave : ℤ) * 10
      speed := stats.speed + (wave : ℚ) * (1/20)
      pathIndex := 0
      reward := stats.reward + (wave : ℤ) * 2
      armor := stats.armor }

/-- The `useEffect` that calls `spawnWave` whenever the wave number changes:
it only fires while `wave > 0 && isPlaying`, and appends the roster to the
current enemy list. -/
def spawnAction (randIdx : ℕ → ℕ) (s : GameState) : GameState :=
  if 0 < s.wave ∧ s.isPlaying = true then
    { s with enemies :=
        s.enemies ++ spawnRoster (MAPS s.currentMap).path s.wave randIdx }
  else s

/-- Movement step for a single enemy (the body of the `prevEnemies.map` in
the game loop), threading the `lives` / `gameOver` / `isPlaying` updates the
source performs through nested state setters. `sq` is the square-root
function used to normalise the movement vector; the arrival test
`distance < 5` is embedded as `distSq < 25`. -/
def moveOne (sq : ℚ → ℚ) (path : List Point) (e : Enemy)
    (lives : ℤ) (gameOver isPlaying : Bool) : Enemy × ℤ × Bool × Bool :=
  match path[e.pathIndex]? with
  | none => (e, lives, gameOver, isPlaying)
  | some target =>
    let dx := target.x - e.x
    let dy := target.y - e.y
    let d2 := dx * dx + dy * dy
    if d2 < 25 then
      if e.pathIndex < path.length - 1 then
        ({ e with pathIndex := e.pathIndex + 1 }, lives, gameOver, isPlaying)
      else
        let newLives := lives - 1
        ({ e with health := 0 }, newLives,
          if newLives ≤ 0 then true else gameOver,
          if newLives ≤ 0 then false else isPlaying)
    else
      let d := sq d2
      ({ e with x := e.x + dx / d * e.speed, y := e.y + dy / d * e.speed },
        lives, gameOver, isPlaying)

/-- The movement phase over the whole enemy list, in iteration order. -/
def moveAll (sq : ℚ → ℚ) (path : List Point) :
    List Enemy → ℤ → Bool → Bool → List Enemy × ℤ × Bool × Bool
  | [], lives, gameOver, isPlaying => ([], lives, gameOver, isPlaying)
  | e :: rest, lives, gameOver, isPlaying =>
    let m1 := moveOne sq path e lives gameOver isPlaying
    let m2 := moveAll sq path rest m1.2.1 m1.2.2.1 m1.2.2.2
    (m1.1 :: m2.1, m2.2)

/-- Whether enemy `e` is within Euclidean `range` of tower `t`
(`Math.sqrt(dx*dx + dy*dy) <= tower.range`, in squared form). -/
def inRange (t : Tower) (e : Enemy) : Bool :=
  decide ((e.x - t.x) * (e.x - t.x) + (e.y - t.y) * (e.y - t.y)
    ≤ t.range * t.range)

/-- The scalar counters a tower attack can touch, bundled so the combat fold
can thread them; `earnedRewards` is the ghost mirror of the gold credit. -/
structure Counters where
  gold : ℤ
  xpEarned : ℤ
  killCount : ℕ
  totalKills : ℕ
  earnedRewards : ℤ
deriving DecidableEq

/-- The counter updates fired when an attack kills: credit the gold reward,
5 experience, and both kill counters (and the ghost reward total). -/
def creditKill (c : Counters) (reward : ℤ) : Counters :=
  { c with gold := c.gold + reward
           xpEarned := c.xpEarned + 5
           killCount := c.killCount + 1
           totalKills := c.totalKills + 1
           earnedRewards := c.earnedRewards + reward }

/-- The `prevEnemies.map` applying one attack: the enemy whose id matches the
target takes `max(tower.damage - e.armor, 5)` damage, and if that kills it
the gold / xp / kill counters are credited. -/
def damageTarget (dmg : ℤ) (tid : String) (c : Counters) :
    List Enemy → List Enemy × Counters
  | [] => ([], c)
  | e :: rest =>
    if e.id = tid then
      let effectiveDamage := max (dmg - e.armor) 5
      let newHealth := e.health - effectiveDamage
      let c1 := if newHealth ≤ 0 then creditKill c e.reward else c
      let r := damageTarget dmg tid c1 rest
      ({ e with health := newHealth } :: r.1, r.2)
    else
      let r := damageTarget dmg tid c rest
      (e :: r.1, r.2)

/-- One tower combat step: gate on the fire-rate window, target the first
in-range enemy in iteration order, and stamp `lastFired := now` whenever the
gate passed, target or not. -/
def towerStep (now : ℤ) (t : Tower) (es : List Enemy) (c : Counters) :
    Tower × List Enemy × Counters :=
  if now - t.lastFired < t.fireRate then (t, es, c)
  else
    match (es.filter (inRange t)).head? with
    | none => ({ t with lastFired := now }, es, c)
    | some target =>
      let r := damageTarget t.damage target.id c es
      ({ t with lastFired := now }, r.1.filter (fun e => 0 < e.health), r.2)

/-- The combat phase over the whole tower list, in iteration order. -/
def towersStep (now : ℤ) :
    List Tower → List Enemy → Counters → List Tower × List Enemy × Counters
  | [], es, c => ([], es, c)
  | t :: ts, es, c =>
    let r1 := towerStep now t es c
    let r2 := towersStep now ts r1.2.1 r1.2.2
    (r1.1 :: r2.1, r2.2)

/-- One iteration of the game loop at timestamp `now`: a no-op unless the
session is playing and not over (the `useEffect` guard), otherwise enemy
movement, the health filter, then tower attacks. -/
def tick (sq : ℚ → ℚ) (now : ℤ) (s : GameState) : GameState :=
  if s.isPlaying = true ∧ s.gameOver = false then
    let path := (MAPS s.currentMap).path
    let m := moveAll sq path s.enemies s.lives s.gameOver s.isPlaying
    let es2 := m.1.filter (fun e => 0 < e.health)
    let c0 : Counters :=
      ⟨s.gold, s.xpEarned, s.killCount, s.totalKills, s.earnedRewards⟩
    let r := towersStep now s.towers es2 c0
    { s with towers := r.1, enemies := r.2.1, lives := m.2.1,
             gameOver := m.2.2.1, isPlaying := m.2.2.2,
             gold := r.2.2.gold, xpEarned := r.2.2.xpEarned,
             killCount := r.2.2.killCount, totalKills := r.2.2.totalKills,
             earnedRewards := r.2.2.earnedRewards }
  else s

/-- Whether `(x, y)` is within the minimum placement distance (30) of some
waypoint of `path` (the `for (const point of currentPath)` check of
`placeTower`, `Math.sqrt < 30` in squared form). -/
def nearPathPoint (path : List Point) (x y : ℚ) : Bool :=
  path.any fun p =>
    decide ((p.x - x) * (p.x - x) + (p.y - y) * (p.y - y) < 900)

/-- The tower record `placeTower` builds at a position: level 1, stats from
the catalog, never fired. The source id is `tower-` plus the click
timestamp, which no operation reads; the embedding uses a constant id. -/
def mkTower (tt : TowerType) (x y : ℚ) : Tower where
  id := "tower"
  type := tt
  x := x
  y := y
  level := 1
  damage := (TOWER_TYPES tt).damage
  range := (TOWER_TYPES tt).range
  fireRate := (TOWER_TYPES tt).fireRate
  lastFired := 0

/-- The `placeTower` click handler: rejects when no tower is selected or
placement mode is off, when gold is short, or when the position is within 30
of a path waypoint; otherwise appends the tower, deducts the cost and leaves
placement mode. -/
def placeTower (x y : ℚ) (s : GameState) : GameState :=
  match s.selectedTower with
  | none => s
  | some tt =>
    if s.placementMode = false then s
    else if s.gold < (TOWER_TYPES tt).cost then s
    else if nearPathPoint (MAPS s.currentMap).path x y then s
    else
      { s with
          towers := s.towers ++ [mkTower tt x y],
          gold := s.gold - (TOWER_TYPES tt).cost,
          placementMode := false,
          spentOnTowers := s.spentOnTowers + (TOWER_TYPES tt).cost }

/-- Selecting a tower in the sidebar arms placement mode. -/
def selectTower (tt : TowerType) (s : GameState) : GameState :=
  { s with selectedTower := some tt, placementMode := true }

/-- The `unlockTower` handler: silently does nothing when gold is below three
times the catalog cost, otherwise deducts and appends the type to
`unlockedTowers` with no membership check. -/
def unlockTower (tt : TowerType) (s : GameState) : GameState :=
  let cost := (TOWER_TYPES tt).cost * 3
  if cost ≤ s.gold then
    { s with gold := s.gold - cost,
             unlockedTowers := s.unlockedTowers ++ [tt],
             spentOnUnlocks := s.spentOnUnlocks + cost }
  else s

/-- `startGame`: begin playing at wave 1. -/
def startGame (s : GameState) : GameState :=
  { s with isPlaying := true, wave := 1 }

/-- The pause button. -/
def pauseGame (s : GameState) : GameState :=
  { s with isPlaying := false }

/-- The resume button. -/
def resumeGame (s : GameState) : GameState :=
  { s with isPlaying := true }

/-- `resetGame`: restore the listed hooks to their initial values. The source
does not touch `selectedTower`, `placementMode`, `unlockedTowers`,
`unlockedMaps` or any pending `setTimeout`; the ghost accounting restarts
with the session. -/
def resetGame (s : GameState) : GameState :=
  { s with towers := [], enemies := [], gold := 250, lives := 20, wave := 0,
           isPlaying := false, gameOver := false, victory := false,
           xpEarned := 0, killCount := 0, totalKills := 0,
           spentOnTowers := 0, spentOnUnlocks := 0, earnedRewards := 0 }

/-- Selecting a region button: `setCurrentMap(key)` immediately followed by
`resetGame()`. -/
def switchMap (m : MapId) (s : GameState) : GameState :=
  resetGame { s with currentMap := m }

/-- `handleVictory`: stop the session, flag victory, add the fixed bonus of
150 plus 15 per wave to the accumulated XP, unlock the next map in catalog
order if not already unlocked, and, when a wallet is connected, record the
session summary with result `win` exactly once. -/
def handleVictory (s : GameState) : GameState :=
  let earnedXP := s.xpEarned + 150 + (s.wave : ℤ) * 15
  let s1 := { s with isPlaying := false, gameOver := true, victory := true,
                     xpEarned := earnedXP }
  let s2 :=
    match nextMap s.currentMap with
    | some nm =>
      if nm ∈ s1.unlockedMaps then s1
      else { s1 with unlockedMaps := s1.unlockedMaps ++ [nm] }
    | none => s1
  match s.address with
  | some a =>
    { s2 with records := s2.records ++
        [{ wallet := a, result := "win", xpEarned := earnedXP,
           wave := s.wave, gold := s.gold, kills := s.totalKills }] }
  | none => s2

/-- The wave-completion `useEffect`: while playing with no enemies left in a
started wave, either hand victory or schedule the 2000 ms `setTimeout` that
will increment the wave (modelled as one more pending timer; the source
keeps no handle to it and never cancels or guards it). -/
def waveCheck (s : GameState) : GameState :=
  if s.isPlaying = true ∧ s.enemies = [] ∧ 0 < s.wave then
    if (MAPS s.currentMap).waves ≤ s.wave then handleVictory s
    else { s with pendingWaveTimers := s.pendingWaveTimers + 1 }
  else s

/-- A pending wave-advance `setTimeout` callback fires: the source body is
the unconditional `setWave(prev => prev + 1)`. -/
def timerFire (s : GameState) : GameState :=
  if 0 < s.pendingWaveTimers then
    { s with wave := s.wave + 1,
             pendingWaveTimers := s.pendingWaveTimers - 1 }
  else s

/-- The states a session can reach through the operations the component
exposes: the initial render, game-loop ticks, the wave-completion effect,
the spawn effect, pending timer callbacks, and the click handlers with their
rendering guards (a locked tower shows no select handler, a locked tower
type shows the unlock button only while locked, the start overlay only shows
in the idle state, region buttons are disabled while locked). -/
inductive Reachable : GameState → Prop where
  | init (address : Option String) : Reachable (initState address)
  | tick (sq : ℚ → ℚ) (now : ℤ) {s : GameState} :
      Reachable s → Reachable (tick sq now s)
  | waveChk {s : GameState} : Reachable s → Reachable (waveCheck s)
  | spawn (randIdx : ℕ → ℕ) {s : GameState} :
      Reachable s → Reachable (spawnAction randIdx s)
  | timer {s : GameState} : Reachable s → Reachable (timerFire s)
  | place (x y : ℚ) {s : GameState} :
      Reachable s → Reachable (placeTower x y s)
  | select (tt : TowerType) {s : GameState} :
      Reachable s → tt ∈ s.unlockedTowers → Reachable (selectTower tt s)
  | unlock (tt : TowerType) {s : GameState} :
      Reachable s → tt ∉ s.unlockedTowers → Reachable (unlockTower tt s)
  | start {s : GameState} :
      Reachable s → s.isPlaying = false → s.gameOver = false → s.wave = 0 →
      Reachable (startGame s)
  | pause {s : GameState} : Reachable s → Reachable (pauseGame s)
  | resume {s : GameState} :
      Reachable s → s.isPlaying = false → 0 < s.wave → s.gameOver = false →
      Reachable (resumeGame s)
  | reset {s : GameState} : Reachable s → Reachable (resetGame s)
  | switch (m : MapId) {s : GameState} :
      Reachable s → m ∈ s.unlockedMaps → Reachable (switchMap m s)

end TD1

namespace TD2

/-- The four tower types of the secondary implementation. -/
inductive TowerType where
  | basic
  | sniper
  | splash
  | slow
deriving DecidableEq

/-- Static catalog data per tower type of the secondary implementation. -/
structure TowerDef where
  cost : ℤ
  damage : ℤ
  range : ℚ
  fireRate : ℤ
  unlocked : Bool
deriving DecidableEq

/-- The `TOWER_TYPES` catalog of the secondary implementation. -/
def TOWER_TYPES : TowerType → TowerDef
  | .basic => ⟨50, 10, 100, 1000, true⟩
  | .sniper => ⟨100, 50, 200, 2000, false⟩
  | .splash => ⟨150, 20, 80, 1500, false⟩
  | .slow => ⟨75, 5, 100, 500, false⟩

/-- The single fixed path `ENEMY_PATH` of the secondary implementation. -/
def ENEMY_PATH : List TD1.Point :=
  [⟨0, 200⟩, ⟨150, 200⟩, ⟨150, 100⟩, ⟨300, 100⟩, ⟨300, 300⟩,
   ⟨450, 300⟩, ⟨450, 150⟩, ⟨600, 150⟩]

/-- The three maps of the secondary implementation. -/
inductive MapId where
  | forest
  | desert
  | volcano
deriving DecidableEq

/-- Per-map data of the secondary implementation: the unlock flag is a
static catalog field, there is no unlock state hook. -/
structure MapDef where
  waves : ℕ
  unlocked : Bool
deriving DecidableEq

/-- The `MAPS` catalog of the secondary implementation. -/
def MAPS : MapId → MapDef
  | .forest => ⟨10, true⟩
  | .desert => ⟨15, false⟩
  | .volcano => ⟨20, false⟩

/-- All map keys of the secondary implementation, in catalog order. -/
def mapOrder : List MapId := [.forest, .desert, .volcano]

/-- The maps whose region buttons are enabled: the static `unlocked` flags
are the only unlock source in the secondary implementation, so this list is
a constant of the program. -/
def availableMaps : List MapId :=
  mapOrder.filter fun m => (MAPS m).unlocked

/-- A placed tower of the secondary implementation. -/
structure Tower where
  id : String
  type : TowerType
  x : ℚ
  y : ℚ
  level : ℕ
  damage : ℤ
  range : ℚ
  fireRate : ℤ
  lastFired : ℤ
deriving DecidableEq

/-- A live enemy of the secondary implementation: no type and no armor. -/
structure Enemy where
  id : String
  x : ℚ
  y : ℚ
  health : ℤ
  maxHealth : ℤ
  speed : ℚ
  pathIndex : ℕ
  reward : ℤ
deriving DecidableEq

/-- The game state of the secondary implementation (one field per hook,
plus the session context and Session Recorder log as in `TD1`). -/
structure GameState where
  towers : List Tower
  enemies : List Enemy
  gold : ℤ
  lives : ℤ
  wave : ℕ
  isPlaying : Bool
  gameOver : Bool
  selectedTower : Option TowerType
  currentMap : MapId
  xpEarned : ℤ
  unlockedTowers : List TowerType
  placementMode : Bool
  killCount : ℕ
  address : Option String
  records : List TD1.Recording
  pendingWaveTimers : ℕ
deriving DecidableEq

/-- The initial state of the secondary implementation. -/
def initState (address : Option String) : GameState where
  towers := []
  enemies := []
  gold := 200
  lives := 20
  wave := 0
  isPlaying := false
  gameOver := false
  selectedTower := some .basic
  currentMap := .forest
  xpEarned := 0
  unlockedTowers := [.basic]
  placementMode := false
  killCount := 0
  address := address
  records := []
  pendingWaveTimers := 0

/-- The enemy roster produced by the secondary `spawnWave` for wave `wave`:
`wave * 2 + 3` identical-type enemies with `20 + wave * 10` health, spawned
at the first waypoint with `40`-unit negative x stagger. -/
def spawnRoster (wave : ℕ) : List Enemy :=
  (List.range (wave * 2 + 3)).map fun (i : ℕ) =>
    let p0 := ENEMY_PATH.headD ⟨0, 0⟩
    { id := "enemy-" ++ toString wave ++ "-" ++ toString i
      x := p0.x - (i : ℚ) * 40
      y := p0.y
      health := 20 + (wave : ℤ) * 10
      maxHealth := 20 + (wave : ℤ) * 10
      speed := 1 + (wave : ℚ) * (1/10)
      pathIndex := 0
      reward := 10 + (wave : ℤ) * 2 }

/-- The attack map of the secondary game loop: the matching enemy takes the
raw `tower.damage` (no armor, no damage floor in this implementation), with
gold / xp / kill credit when it dies. -/
def damageTarget (dmg : ℤ) (tid : String) (gold xp : ℤ) (kills : ℕ) :
    List Enemy → List Enemy × ℤ × ℤ × ℕ
  | [] => ([], gold, xp, kills)
  | e :: rest =>
    if e.id = tid then
      let newHealth := e.health - dmg
      let acc : ℤ × ℤ × ℕ :=
        if newHealth ≤ 0 then (gold + e.reward, xp + 5, kills + 1)
        else (gold, xp, kills)
      let r := damageTarget dmg tid acc.1 acc.2.1 acc.2.2 rest
      ({ e with health := newHealth } :: r.1, r.2)
    else
      let r := damageTarget dmg tid gold xp kills rest
      (e :: r.1, r.2)

/-- The tower record the secondary `placeTower` builds at a position. -/
def mkTower (tt : TowerType) (x y : ℚ) : Tower where
  id := "tower"
  type := tt
  x := x
  y := y
  level := 1
  damage := (TOWER_TYPES tt).damage
  range := (TOWER_TYPES tt).range
  fireRate := (TOWER_TYPES tt).fireRate
  lastFired := 0

/-- The secondary `placeTower`: rejects only when nothing is selected,
placement mode is off, or gold is short — there is no path-clearance check
of any kind in this implementation. -/
def placeTower (x y : ℚ) (s : GameState) : GameState :=
  match s.selectedTower with
  | none => s
  | some tt =>
    if s.placementMode = false then s
    else if s.gold < (TOWER_TYPES tt).cost then s
    else
      { s with
          towers := s.towers ++ [mkTower tt x y],
          gold := s.gold - (TOWER_TYPES tt).cost,
          placementMode := false }

/-- The secondary `unlockTower`: five times the catalog cost, silent no-op
when gold is short, no membership check before appending. -/
def unlockTower (tt : TowerType) (s : GameState) : GameState :=
  let cost := (TOWER_TYPES tt).cost * 5
  if cost ≤ s.gold then
    { s with gold := s.gold - cost,
             unlockedTowers := s.unlockedTowers ++ [tt] }
  else s

/-- The secondary `handleVictory`: stop the session, add the fixed bonus of
100 plus 10 per wave to the accumulated XP, and record the summary when a
wallet is connected. It unlocks nothing: this implementation has no map
unlock state at all. -/
def handleVictory (s : GameState) : GameState :=
  let earnedXP := s.xpEarned + 100 + (s.wave : ℤ) * 10
  let s1 := { s with isPlaying := false, gameOver := true,
                     xpEarned := earnedXP }
  match s.address with
  | some a =>
    { s1 with records := s1.records ++
        [{ wallet := a, result := "win", xpEarned := earnedXP,
           wave := s.wave, gold := s.gold, kills := s.killCount }] }
  | none => s1

/-- The secondary wave-completion effect: victory once `wave` reaches the
map's wave count, otherwise schedule the 2000 ms wave increment. -/
def waveCheck (s : GameState) : GameState :=
  if s.isPlaying = true ∧ s.enemies = [] ∧ 0 < s.wave then
    if (MAPS s.currentMap).waves ≤ s.wave then handleVictory s
    else { s with pendingWaveTimers := s.pendingWaveTimers + 1 }
  else s

end TD2

namespace TD1

/-- Whether this enemy completes the path on the current tick: its target
waypoint exists, it is within the arrival threshold (squared form of
`distance < 5`), and the target is the final waypoint. Mirrors the branch of
`moveOne` that decrements `lives`. -/
def completesPath (path : List Point) (e : Enemy) : Bool :=
  match path[e.pathIndex]? with
  | none => false
  | some target =>
    decide ((target.x - e.x) * (target.x - e.x)
      + (target.y - e.y) * (target.y - e.y) < 25)
    && !(decide (e.pathIndex < path.length - 1))

/-- The number of enemies of `es` that complete the path on this tick. -/
def completedCount (path : List Point) (es : List Enemy) : ℕ :=
  (es.filter (completesPath path)).length

/-- Modelled from the spec: a point of the segment from `a` to `b` (the
claim quantifies over "any point of any path segment", which the source
never computes - its check visits waypoints only). -/
def onSegment (a b q : Point) : Prop :=
  ∃ t : ℚ, 0 ≤ t ∧ t ≤ 1 ∧
    q.x = a.x + t * (b.x - a.x) ∧ q.y = a.y + t * (b.y - a.y)

/-- Modelled from the spec: position `p` lies within the clearance distance
(30 units) of some point of the segment from `a` to `b`. -/
def withinSegmentClearance (p a b : Point) : Prop :=
  ∃ q : Point, onSegment a b q ∧ distSq p q < 900

/-- An enemy standing exactly on the final greenlands waypoint, about to
complete the path on the next tick. -/
def endOfPathEnemy (n : String) : Enemy where
  id := n
  type := .goblin
  x := 600
  y := 180
  health := 30
  maxHealth := 30
  speed := 3/2
  pathIndex := 7
  reward := 10
  armor := 0

/-- A session state one tick from defeat with a connected wallet: one life
left and a single enemy at the end of the path. -/
def defeatState : GameState :=
  { initState (some "0xabc") with
      isPlaying := true, lives := 1, wave := 3,
      enemies := [endOfPathEnemy "enemy-3-0"] }

/-- A session state with one life left and two enemies reaching the end of
the path on the same tick. -/
def doubleLossState : GameState :=
  { initState (some "0xabc") with
      isPlaying := true, lives := 1, wave := 3,
      enemies := [endOfPathEnemy "enemy-3-0", endOfPathEnemy "enemy-3-1"] }

/-- The stale-timer scenario: start a game (wave 1, no enemies yet), let the
wave-completion effect schedule the 2000 ms wave advance, reset, and then
let the queued callback fire. -/
def staleTimerState : GameState :=
  timerFire (resetGame (waveCheck (startGame (initState none))))

/-- The state reached by selecting the archer tower and clicking the middle
of the first greenlands path segment. -/
def midSegmentPlacement : GameState :=
  placeTower 60 180 (selectTower .archer (initState none))

/-- The state reached by unlocking the barracks tower from the initial
state. -/
def unlockOnlyState : GameState :=
  unlockTower .barracks (initState none)

/-- A winning primary-implementation state: wave 10 on greenlands cleared
while playing. -/
def winState : GameState :=
  { initState none with wave := 10, isPlaying := true }

/-- A winning primary-implementation state with a connected wallet. -/
def winStateWallet : GameState :=
  { initState (some "0xw") with wave := 10, isPlaying := true }

/-- A sample tower used to instantiate the combat-step theorem: an archer
tower at the origin that last fired at time 0. -/
def sampleTower : Tower where
  id := "tower"
  type := .archer
  x := 0
  y := 0
  level := 1
  damage := 15
  range := 120
  fireRate := 800
  lastFired := 0

/-- A sample enemy within range of `sampleTower`. -/
def sampleEnemy : Enemy where
  id := "enemy-1-0"
  type := .goblin
  x := 10
  y := 0
  health := 40
  maxHealth := 40
  speed := 3/2
  pathIndex := 0
  reward := 10
  armor := 0

/-- The gold-accounting invariant: gold equals the initial 250 minus tower
and unlock spending plus kill rewards, gold is nonnegative, and every live
enemy has a nonnegative reward. -/
def AccInv (s : GameState) : Prop :=
  s.gold = 250 - s.spentOnTowers - s.spentOnUnlocks + s.earnedRewards
  ∧ 0 ≤ s.gold
  ∧ ∀ e ∈ s.enemies, 0 ≤ e.reward

/-- The placement-clearance invariant: every placed tower is at least 30
units from every waypoint of the active path. -/
def ClearInv (s : GameState) : Prop :=
  ∀ t ∈ s.towers, ∀ p ∈ (MAPS s.currentMap).path, 900 ≤ distSq ⟨t.x, t.y⟩ p

end TD1

namespace TD2

/-- A winning secondary-implementation state: wave 10 on forest cleared
while playing, wallet connected. -/
def winState : GameState :=
  { initState (some "0xw") with wave := 10, isPlaying := true, enemies := [] }

end TD2

/-! Helper lemmas about the embedded operations. -/

/-- The first element of a filtered list is the first element of the
original list satisfying the predicate. -/
theorem head_filter_eq_find {α : Type} (p : α → Bool) :
    ∀ l : List α, (l.filter p).head? = l.find? p := by
  intro l
  induction l with
  | nil => rfl
  | cons a l ih =>
    by_cases h : p a = true
    · simp [List.filter_cons, List.find?_cons, h]
    · simp only [List.filter_cons, List.find?_cons, h]
      simpa [h] using ih

namespace TD1

/-- Counting path completions distributes over cons. -/
theorem completedCount_cons (path : List Point) (e : Enemy) (rest : List Enemy) :
    completedCount path (e :: rest)
      = (if completesPath path e = true then 1 else 0)
        + completedCount path rest := by
  simp only [completedCount, List.filter_cons]
  split <;> simp [Nat.add_comm]

/-- The movement phase decrements lives by exactly the number of enemies
completing the path, regardless of the flags it starts from. -/
theorem moveAll_lives (sq : ℚ → ℚ) (path : List Point) :
    ∀ (es : List Enemy) (l : ℤ) (g p : Bool),
      (moveAll sq path es l g p).2.1 = l - (completedCount path es : ℤ) := by
  intro es
  induction es with
  | nil => intro l g p; simp [moveAll, completedCount]
  | cons e rest ih =>
    intro l g p
    rcases hp : path[e.pathIndex]? with _ | target
    · have hc : completesPath path e = false := by simp [completesPath, hp]
      simp only [moveAll, moveOne, hp, completedCount_cons, hc]
      rw [ih]
      simp
    · by_cases h1 : (target.x - e.x) * (target.x - e.x)
          + (target.y - e.y) * (target.y - e.y) < 25
      · by_cases h2 : e.pathIndex < path.length - 1
        · have hc : completesPath path e = false := by
            simp [completesPath, hp, h1, h2]
          simp only [moveAll, moveOne, hp, if_pos h1, if_pos h2,
            completedCount_cons, hc]
          rw [ih]
          simp
        · have hc : completesPath path e = true := by
            simp [completesPath, hp, h1, h2]
          simp only [moveAll, moveOne, hp, if_pos h1, if_neg h2,
            completedCount_cons, hc]
          rw [ih]
          push_cast
          ring
      · have hc : completesPath path e = false := by
          simp [completesPath, hp, h1]
        simp only [moveAll, moveOne, hp, if_neg h1, completedCount_cons, hc]
        rw [ih]
        simp

/-- The movement phase sets gameOver exactly when some completion drives the
running lives to zero or below, and clears isPlaying at the same moment. -/
theorem moveAll_flags (sq : ℚ → ℚ) (path : List Point) :
    ∀ (es : List Enemy) (l : ℤ) (g p : Bool),
      ((moveAll sq path es l g p).2.2.1 = true ↔
        (g = true ∨ (1 ≤ completedCount path es
          ∧ l ≤ (completedCount path es : ℤ))))
    ∧ ((moveAll sq path es l g p).2.2.2 = true ↔
        (p = true ∧ ¬(1 ≤ completedCount path es
          ∧ l ≤ (completedCount path es : ℤ)))) := by
  intro es
  induction es with
  | nil =>
    intro l g p
    constructor
    · simp [moveAll, completedCount]
    · simp [moveAll, completedCount]
  | cons e rest ih =>
    intro l g p
    rcases hp : path[e.pathIndex]? with _ | target
    · have hc : completesPath path e = false := by simp [completesPath, hp]
      simp only [moveAll, moveOne, hp, completedCount_cons, hc,
        if_neg (by simp : ¬ (false : Bool) = true), Nat.zero_add]
      exact ih l g p
    · by_cases h1 : (target.x - e.x) * (target.x - e.x)
          + (target.y - e.y) * (target.y - e.y) < 25
      · by_cases h2 : e.pathIndex < path.length - 1
        · have hc : completesPath path e = false := by
            simp [completesPath, hp, h1, h2]
          simp only [moveAll, moveOne, hp, if_pos h1, if_pos h2,
            completedCount_cons, hc,
            if_neg (by simp : ¬ (false : Bool) = true), Nat.zero_add]
          exact ih l g p
        · have hc : completesPath path e = true := by
            simp [completesPath, hp, h1, h2]
          simp only [moveAll, moveOne, hp, if_pos h1, if_neg h2,
            completedCount_cons, hc, if_pos rfl]
          by_cases h3 : l - 1 ≤ 0
          · obtain ⟨ihg, ihp⟩ := ih (l - 1) true false
            simp only [if_pos h3]
            constructor
            · rw [ihg]
              cases g <;> simp <;> omega
            · rw [ihp]
              cases p <;> simp <;> omega
          · obtain ⟨ihg, ihp⟩ := ih (l - 1) g p
            simp only [if_neg h3]
            constructor
            · rw [ihg]
              cases g <;> simp <;> omega
            · rw [ihp]
              cases p <;> simp <;> omega
      · have hc : completesPath path e = false := by
          simp [completesPath, hp, h1]
        simp only [moveAll, moveOne, hp, if_neg h1, completedCount_cons, hc,
          if_neg (by simp : ¬ (false : Bool) = true), Nat.zero_add]
        exact ih l g p

end TD1

namespace TD1

/-- Gold minus the ghost reward total is preserved by an attack pass, gold
never decreases through it, and it only rewrites enemy healths. -/
theorem damageTarget_spec (dmg : ℤ) (tid : String) :
    ∀ (es : List Enemy) (c : Counters),
      (damageTarget dmg tid c es).2.gold
          - (damageTarget dmg tid c es).2.earnedRewards
        = c.gold - c.earnedRewards
    ∧ ((∀ e ∈ es, 0 ≤ e.reward) → c.gold ≤ (damageTarget dmg tid c es).2.gold)
    ∧ (∀ e1 ∈ (damageTarget dmg tid c es).1, ∃ e ∈ es, e1.reward = e.reward) := by
  intro es
  induction es with
  | nil =>
    intro c
    exact ⟨rfl, fun _ => le_rfl, by simp [damageTarget]⟩
  | cons e rest ih =>
    intro c
    by_cases hid : e.id = tid
    · by_cases hkill : e.health - max (dmg - e.armor) 5 ≤ 0
      · simp only [damageTarget, if_pos hid, if_pos hkill]
        obtain ⟨i1, i2, i3⟩ := ih (creditKill c e.reward)
        refine ⟨?_, ?_, ?_⟩
        · rw [i1]
          simp only [creditKill]
          ring
        · intro hrew
          have h2 := i2 (fun e1 he1 => hrew e1 (List.mem_cons_of_mem _ he1))
          have h3 := hrew e (List.mem_cons_self e rest)
          have hg : (creditKill c e.reward).gold = c.gold + e.reward := rfl
          omega
        · intro e1 he1
          rcases List.mem_cons.mp he1 with h | h
          · exact ⟨e, List.mem_cons_self e rest, by rw [h]⟩
          · obtain ⟨e2, he2, hr⟩ := i3 e1 h
            exact ⟨e2, List.mem_cons_of_mem _ he2, hr⟩
      · simp only [damageTarget, if_pos hid, if_neg hkill]
        obtain ⟨i1, i2, i3⟩ := ih c
        refine ⟨i1, ?_, ?_⟩
        · intro hrew
          exact i2 (fun e1 he1 => hrew e1 (List.mem_cons_of_mem _ he1))
        · intro e1 he1
          rcases List.mem_cons.mp he1 with h | h
          · exact ⟨e, List.mem_cons_self e rest, by rw [h]⟩
          · obtain ⟨e2, he2, hr⟩ := i3 e1 h
            exact ⟨e2, List.mem_cons_of_mem _ he2, hr⟩
    · simp only [damageTarget, if_neg hid]
      obtain ⟨i1, i2, i3⟩ := ih c
      refine ⟨i1, ?_, ?_⟩
      · intro hrew
        exact i2 (fun e1 he1 => hrew e1 (List.mem_cons_of_mem _ he1))
      · intro e1 he1
        rcases List.mem_cons.mp he1 with h | h
        · exact ⟨e, List.mem_cons_self e rest, by rw [h]⟩
        · obtain ⟨e2, he2, hr⟩ := i3 e1 h
          exact ⟨e2, List.mem_cons_of_mem _ he2, hr⟩

/-- The single-tower combat step: same accounting facts, and the tower keeps
its position. -/
theorem towerStep_spec (now : ℤ) (t : Tower) (es : List Enemy) (c : Counters) :
    (towerStep now t es c).2.2.gold - (towerStep now t es c).2.2.earnedRewards
      = c.gold - c.earnedRewards
  ∧ ((∀ e ∈ es, 0 ≤ e.reward) → c.gold ≤ (towerStep now t es c).2.2.gold)
  ∧ (∀ e1 ∈ (towerStep now t es c).2.1, ∃ e ∈ es, e1.reward = e.reward)
  ∧ (towerStep now t es c).1.x = t.x ∧ (towerStep now t es c).1.y = t.y := by
  by_cases hfire : now - t.lastFired < t.fireRate
  · simp only [towerStep, if_pos hfire]
    exact ⟨by trivial, fun _ => le_rfl, fun e1 he1 => ⟨e1, he1, rfl⟩,
      by trivial, by trivial⟩
  · rcases hh : (es.filter (inRange t)).head? with _ | target
    · simp only [towerStep, if_neg hfire, hh]
      exact ⟨by trivial, fun _ => le_rfl, fun e1 he1 => ⟨e1, he1, rfl⟩,
        by trivial, by trivial⟩
    · simp only [towerStep, if_neg hfire, hh]
      obtain ⟨h1, h2, h3⟩ := damageTarget_spec t.damage target.id es c
      refine ⟨h1, h2, ?_, by trivial, by trivial⟩
      intro e1 he1
      exact h3 e1 (List.mem_of_mem_filter he1)

/-- The whole combat phase: same accounting facts, and towers keep their
positions. -/
theorem towersStep_spec (now : ℤ) :
    ∀ (ts : List Tower) (es : List Enemy) (c : Counters),
      (towersStep now ts es c).2.2.gold
          - (towersStep now ts es c).2.2.earnedRewards
        = c.gold - c.earnedRewards
    ∧ ((∀ e ∈ es, 0 ≤ e.reward) → c.gold ≤ (towersStep now ts es c).2.2.gold)
    ∧ (∀ e1 ∈ (towersStep now ts es c).2.1, ∃ e ∈ es, e1.reward = e.reward)
    ∧ (∀ t1 ∈ (towersStep now ts es c).1, ∃ t ∈ ts, t1.x = t.x ∧ t1.y = t.y) := by
  intro ts
  induction ts with
  | nil =>
    intro es c
    refine ⟨by trivial, fun _ => le_rfl, fun e1 he1 => ⟨e1, he1, rfl⟩, ?_⟩
    simp [towersStep]
  | cons t ts ih =>
    intro es c
    obtain ⟨h1, h2, h3, hx, hy⟩ := towerStep_spec now t es c
    obtain ⟨g1, g2, g3, g4⟩ := ih (towerStep now t es c).2.1 (towerStep now t es c).2.2
    refine ⟨?_, ?_, ?_, ?_⟩
    · simp only [towersStep]
      rw [g1, h1]
    · intro hrew
      simp only [towersStep]
      have hrew1 : ∀ e ∈ (towerStep now t es c).2.1, 0 ≤ e.reward := by
        intro e1 he1
        obtain ⟨e2, he2, hr⟩ := h3 e1 he1
        rw [hr]
        exact hrew e2 he2
      exact le_trans (h2 hrew) (g2 hrew1)
    · intro e1 he1
      simp only [towersStep] at he1
      obtain ⟨e2, he2, hr⟩ := g3 e1 he1
      obtain ⟨e3, he3, hr2⟩ := h3 e2 he2
      exact ⟨e3, he3, hr.trans hr2⟩
    · intro t1 ht1
      simp only [towersStep, List.mem_cons] at ht1
      rcases ht1 with h | h
      · exact ⟨t, List.mem_cons_self t ts, by rw [h]; exact hx, by rw [h]; exact hy⟩
      · obtain ⟨t2, ht2, hxy⟩ := g4 t1 h
        exact ⟨t2, List.mem_cons_of_mem _ ht2, hxy⟩

/-- Movement never changes an enemy reward. -/
theorem moveOne_reward (sq : ℚ → ℚ) (path : List Point) (e : Enemy)
    (l : ℤ) (g p : Bool) :
    (moveOne sq path e l g p).1.reward = e.reward := by
  rcases hp : path[e.pathIndex]? with _ | target <;>
    simp only [moveOne, hp] <;> split_ifs <;> rfl

/-- Every enemy surviving the movement phase carries the reward of an enemy
that entered it. -/
theorem moveAll_enemies (sq : ℚ → ℚ) (path : List Point) :
    ∀ (es : List Enemy) (l : ℤ) (g p : Bool),
      ∀ e1 ∈ (moveAll sq path es l g p).1, ∃ e ∈ es, e1.reward = e.reward := by
  intro es
  induction es with
  | nil => intro l g p e1 he1; simp [moveAll] at he1
  | cons e rest ih =>
    intro l g p e1 he1
    simp only [moveAll, List.mem_cons] at he1
    rcases he1 with h | h
    · exact ⟨e, List.mem_cons_self e rest, by rw [h, moveOne_reward]⟩
    · obtain ⟨e2, he2, hr⟩ := ih _ _ _ e1 h
      exact ⟨e2, List.mem_cons_of_mem _ he2, hr⟩

end TD1

namespace TD1

theorem tick_effects (sq : ℚ → ℚ) (now : ℤ) (s : GameState)
    (hrew : ∀ e ∈ s.enemies, 0 ≤ e.reward) :
    (tick sq now s).gold - (tick sq now s).earnedRewards
      = s.gold - s.earnedRewards
  ∧ s.gold ≤ (tick sq now s).gold
  ∧ (tick sq now s).spentOnTowers = s.spentOnTowers
  ∧ (tick sq now s).spentOnUnlocks = s.spentOnUnlocks
  ∧ (∀ e1 ∈ (tick sq now s).enemies, 0 ≤ e1.reward)
  ∧ (∀ t1 ∈ (tick sq now s).towers, ∃ t ∈ s.towers, t1.x = t.x ∧ t1.y = t.y)
  ∧ (tick sq now s).currentMap = s.currentMap := by
  by_cases hguard : s.isPlaying = true ∧ s.gameOver = false
  · have hrew2 : ∀ e ∈ ((moveAll sq (MAPS s.currentMap).path s.enemies s.lives
        s.gameOver s.isPlaying).1.filter (fun e => 0 < e.health)), 0 ≤ e.reward := by
      intro e1 he1
      obtain ⟨e2, he2, hr⟩ := moveAll_enemies sq (MAPS s.currentMap).path
        s.enemies s.lives s.gameOver s.isPlaying e1 (List.mem_of_mem_filter he1)
      rw [hr]
      exact hrew e2 he2
    obtain ⟨g1, g2, g3, g4⟩ := towersStep_spec now s.towers
      ((moveAll sq (MAPS s.currentMap).path s.enemies s.lives s.gameOver
        s.isPlaying).1.filter (fun e => 0 < e.health))
      ⟨s.gold, s.xpEarned, s.killCount, s.totalKills, s.earnedRewards⟩
    simp only [tick, if_pos hguard]
    refine ⟨g1, g2 hrew2, by trivial, by trivial, ?_, g4, by trivial⟩
    intro e1 he1
    obtain ⟨e2, he2, hr⟩ := g3 e1 he1
    rw [hr]
    exact hrew2 e2 he2
  · simp only [tick, if_neg hguard]
    exact ⟨by trivial, le_rfl, by trivial, by trivial, hrew, fun t1 ht1 =>
      ⟨t1, ht1, rfl, rfl⟩, by trivial⟩

theorem spawnRoster_reward (path : List Point) (w : ℕ) (randIdx : ℕ → ℕ) :
    ∀ e ∈ spawnRoster path w randIdx, 0 ≤ e.reward := by
  intro e he
  simp only [spawnRoster, List.mem_map] at he
  obtain ⟨i, -, rfl⟩ := he
  have hb : ∀ ty : EnemyType, 0 ≤ (baseStats ty).reward := by
    intro ty
    cases ty <;> decide
  have hw : 0 ≤ (w : ℤ) * 2 := by positivity
  have := hb (enemyTypesList.getD
    (randIdx i % (min (w / 3) (enemyTypesList.length - 1) + 1)) .goblin)
  simp only
  omega

theorem handleVictory_preserves (s : GameState) :
    (handleVictory s).gold = s.gold
  ∧ (handleVictory s).spentOnTowers = s.spentOnTowers
  ∧ (handleVictory s).spentOnUnlocks = s.spentOnUnlocks
  ∧ (handleVictory s).earnedRewards = s.earnedRewards
  ∧ (handleVictory s).enemies = s.enemies
  ∧ (handleVictory s).towers = s.towers
  ∧ (handleVictory s).currentMap = s.currentMap := by
  cases ha : s.address <;> cases hnm : nextMap s.currentMap <;>
    simp only [handleVictory, ha, hnm] <;>
    first
      | exact ⟨by trivial, by trivial, by trivial, by trivial, by trivial,
          by trivial, by trivial⟩
      | (split <;> exact ⟨by trivial, by trivial, by trivial, by trivial,
          by trivial, by trivial, by trivial⟩)

theorem reachable_accInv {s : GameState} (h : Reachable s) : AccInv s := by
  induction h with
  | init address =>
    refine ⟨by norm_num [initState], by norm_num [initState], ?_⟩
    intro e he
    simp [initState] at he
  | tick sq now hr ih =>
    rename_i s2
    obtain ⟨a1, a2, a3⟩ := ih
    obtain ⟨t1, t2, t3, t4, t5, -, -⟩ := tick_effects sq now s2 a3
    exact ⟨by omega, by omega, t5⟩
  | waveChk hr ih =>
    rename_i s2
    obtain ⟨a1, a2, a3⟩ := ih
    by_cases hc : s2.isPlaying = true ∧ s2.enemies = [] ∧ 0 < s2.wave
    · by_cases hv : (MAPS s2.currentMap).waves ≤ s2.wave
      · obtain ⟨p1, p2, p3, p4, p5, -, -⟩ := handleVictory_preserves s2
        simp only [waveCheck, if_pos hc, if_pos hv]
        refine ⟨by omega, by omega, ?_⟩
        rw [p5]
        exact a3
      · simp only [waveCheck, if_pos hc, if_neg hv]
        exact ⟨a1, a2, a3⟩
    · simp only [waveCheck, if_neg hc]
      exact ⟨a1, a2, a3⟩
  | spawn randIdx hr ih =>
    rename_i s2
    obtain ⟨a1, a2, a3⟩ := ih
    by_cases hc : 0 < s2.wave ∧ s2.isPlaying = true
    · simp only [spawnAction, if_pos hc]
      refine ⟨a1, a2, ?_⟩
      intro e he
      rcases List.mem_append.mp he with h | h
      · exact a3 e h
      · exact spawnRoster_reward _ _ _ e h
    · simp only [spawnAction, if_neg hc]
      exact ⟨a1, a2, a3⟩
  | timer hr ih =>
    rename_i s2
    obtain ⟨a1, a2, a3⟩ := ih
    by_cases hc : 0 < s2.pendingWaveTimers
    · simp only [timerFire, if_pos hc]
      exact ⟨a1, a2, a3⟩
    · simp only [timerFire, if_neg hc]
      exact ⟨a1, a2, a3⟩
  | place x y hr ih =>
    rename_i s2
    obtain ⟨a1, a2, a3⟩ := ih
    rcases hsel : s2.selectedTower with _ | tt
    · simp only [placeTower, hsel]
      exact ⟨a1, a2, a3⟩
    · simp only [placeTower, hsel]
      split_ifs with h1 h2 h3
      · exact ⟨a1, a2, a3⟩
      · exact ⟨a1, a2, a3⟩
      · exact ⟨a1, a2, a3⟩
      · refine ⟨by simp only; omega, by simp only; omega, a3⟩
  | select tt hr hmem ih =>
    obtain ⟨a1, a2, a3⟩ := ih
    exact ⟨a1, a2, a3⟩
  | unlock tt hr hmem ih =>
    obtain ⟨a1, a2, a3⟩ := ih
    simp only [unlockTower]
    split_ifs with h1
    · refine ⟨by simp only; omega, by simp only; omega, a3⟩
    · exact ⟨a1, a2, a3⟩
  | start hr h1 h2 h3 ih =>
    obtain ⟨a1, a2, a3⟩ := ih
    exact ⟨a1, a2, a3⟩
  | pause hr ih =>
    obtain ⟨a1, a2, a3⟩ := ih
    exact ⟨a1, a2, a3⟩
  | resume hr h1 h2 h3 ih =>
    obtain ⟨a1, a2, a3⟩ := ih
    exact ⟨a1, a2, a3⟩
  | reset hr ih =>
    refine ⟨by norm_num [resetGame], by norm_num [resetGame], ?_⟩
    intro e he
    simp [resetGame] at he
  | switch m hr hmem ih =>
    refine ⟨by norm_num [switchMap, resetGame], by norm_num [switchMap, resetGame], ?_⟩
    intro e he
    simp [switchMap, resetGame] at he

end TD1


namespace TD1

theorem tick_towers (sq : ℚ → ℚ) (now : ℤ) (s : GameState) :
    (∀ t1 ∈ (tick sq now s).towers, ∃ t ∈ s.towers, t1.x = t.x ∧ t1.y = t.y)
  ∧ (tick sq now s).currentMap = s.currentMap := by
  by_cases hguard : s.isPlaying = true ∧ s.gameOver = false
  · obtain ⟨-, -, -, g4⟩ := towersStep_spec now s.towers
      ((moveAll sq (MAPS s.currentMap).path s.enemies s.lives s.gameOver
        s.isPlaying).1.filter (fun e => 0 < e.health))
      ⟨s.gold, s.xpEarned, s.killCount, s.totalKills, s.earnedRewards⟩
    simp only [tick, if_pos hguard]
    exact ⟨g4, by trivial⟩
  · simp only [tick, if_neg hguard]
    exact ⟨fun t1 ht1 => ⟨t1, ht1, rfl, rfl⟩, by trivial⟩

theorem not_nearPathPoint {path : List Point} {x y : ℚ}
    (h : nearPathPoint path x y = false) :
    ∀ p ∈ path, 900 ≤ distSq ⟨x, y⟩ p := by
  intro p hp
  have h2 := List.any_eq_false.mp h p hp
  simp only [decide_eq_true_eq] at h2
  have h3 : distSq ⟨x, y⟩ p
      = (p.x - x) * (p.x - x) + (p.y - y) * (p.y - y) := by
    simp only [distSq]
    ring
  rw [h3]
  linarith [not_lt.mp h2]

theorem reachable_clearInv {s : GameState} (h : Reachable s) : ClearInv s := by
  induction h with
  | init address =>
    intro t ht
    simp [initState] at ht
  | tick sq now hr ih =>
    rename_i s2
    intro t ht p hp
    obtain ⟨htow, hmap⟩ := tick_towers sq now s2
    obtain ⟨t2, ht2, hx, hy⟩ := htow t ht
    rw [hmap] at hp
    rw [hx, hy]
    exact ih t2 ht2 p hp
  | waveChk hr ih =>
    rename_i s2
    intro t ht p hp
    by_cases hc : s2.isPlaying = true ∧ s2.enemies = [] ∧ 0 < s2.wave
    · by_cases hv : (MAPS s2.currentMap).waves ≤ s2.wave
      · obtain ⟨-, -, -, -, -, ptow, pmap⟩ := handleVictory_preserves s2
        simp only [waveCheck, if_pos hc, if_pos hv] at ht hp
        rw [ptow] at ht
        rw [pmap] at hp
        exact ih t ht p hp
      · simp only [waveCheck, if_pos hc, if_neg hv] at ht hp
        exact ih t ht p hp
    · simp only [waveCheck, if_neg hc] at ht hp
      exact ih t ht p hp
  | spawn randIdx hr ih =>
    rename_i s2
    intro t ht p hp
    by_cases hc : 0 < s2.wave ∧ s2.isPlaying = true
    · simp only [spawnAction, if_pos hc] at ht hp
      exact ih t ht p hp
    · simp only [spawnAction, if_neg hc] at ht hp
      exact ih t ht p hp
  | timer hr ih =>
    rename_i s2
    intro t ht p hp
    by_cases hc : 0 < s2.pendingWaveTimers
    · simp only [timerFire, if_pos hc] at ht hp
      exact ih t ht p hp
    · simp only [timerFire, if_neg hc] at ht hp
      exact ih t ht p hp
  | place x y hr ih =>
    rename_i s2
    intro t ht p hp
    rcases hsel : s2.selectedTower with _ | tt
    · simp only [placeTower, hsel] at ht hp
      exact ih t ht p hp
    · simp only [placeTower, hsel] at ht hp
      split_ifs at ht hp with h1 h2 h3
      · exact ih t ht p hp
      · exact ih t ht p hp
      · exact ih t ht p hp
      · simp only [List.mem_append, List.mem_singleton] at ht
        rcases ht with hold | hnew
        · exact ih t hold p hp
        · rw [hnew]
          exact not_nearPathPoint (Bool.of_not_eq_true h3) p hp
  | select tt hr hmem ih => exact ih
  | unlock tt hr hmem ih =>
    rename_i s2
    intro t ht p hp
    simp only [unlockTower] at ht hp
    split_ifs at ht hp with h1
    · exact ih t ht p hp
    · exact ih t ht p hp
  | start hr h1 h2 h3 ih => exact ih
  | pause hr ih => exact ih
  | resume hr h1 h2 h3 ih => exact ih
  | reset hr ih =>
    intro t ht
    simp [resetGame] at ht
  | switch m hr hmem ih =>
    intro t ht
    simp [switchMap, resetGame] at ht

end TD1

section Claims

/-- C1: every tower attack reduces the targeted enemy's health by exactly
max(damage - armor, 5), never less than the floor of 5 even when armor
exceeds damage; and in the secondary implementation every catalog tower's
attack reduces health by exactly max(damage - 0, 5) as well. -/
theorem claim1_damage_floor :
    (∀ (dmg : ℤ) (c : TD1.Counters) (e : TD1.Enemy) (rest : List TD1.Enemy),
      (TD1.damageTarget dmg e.id c (e :: rest)).1.head? =
        some { e with health := e.health - max (dmg - e.armor) 5 })
  ∧ (∀ dmg armor : ℤ, 5 ≤ max (dmg - armor) 5)
  ∧ (∀ (tt : TD2.TowerType) (g x : ℤ) (k : ℕ) (e : TD2.Enemy)
       (rest : List TD2.Enemy),
      (TD2.damageTarget (TD2.TOWER_TYPES tt).damage e.id g x k
        (e :: rest)).1.head? =
        some { e with health :=
          e.health - max ((TD2.TOWER_TYPES tt).damage - 0) 5 }) := by
  refine ⟨?_, fun dmg armor => le_max_right _ _, ?_⟩
  · intro dmg c e rest
    simp [TD1.damageTarget]
  · intro tt g x k e rest
    cases tt <;> simp [TD2.damageTarget, TD2.TOWER_TYPES]

/-- C10: unlocking a tower is a silent no-op when gold is below the unlock
cost (three times the catalog cost in the primary implementation, five times
in the secondary); when gold suffices it deducts the cost and appends the
type without a membership check, so repeating it for an already-unlocked
type charges and duplicates again. -/
theorem claim10_unlock_no_dedup :
    (∀ (tt : TD1.TowerType) (s : TD1.GameState),
       (s.gold < (TD1.TOWER_TYPES tt).cost * 3 → TD1.unlockTower tt s = s)
     ∧ ((TD1.TOWER_TYPES tt).cost * 3 ≤ s.gold →
         (TD1.unlockTower tt s).gold = s.gold - (TD1.TOWER_TYPES tt).cost * 3
       ∧ (TD1.unlockTower tt s).unlockedTowers = s.unlockedTowers ++ [tt]
       ∧ (TD1.unlockTower tt s).unlockedTowers.count tt
           = s.unlockedTowers.count tt + 1))
  ∧ (∀ (tt : TD2.TowerType) (s : TD2.GameState),
       (s.gold < (TD2.TOWER_TYPES tt).cost * 5 → TD2.unlockTower tt s = s)
     ∧ ((TD2.TOWER_TYPES tt).cost * 5 ≤ s.gold →
         (TD2.unlockTower tt s).gold = s.gold - (TD2.TOWER_TYPES tt).cost * 5
       ∧ (TD2.unlockTower tt s).unlockedTowers = s.unlockedTowers ++ [tt])) := by
  constructor
  · intro tt s
    constructor
    · intro h
      simp only [TD1.unlockTower]
      rw [if_neg (by omega)]
    · intro h
      simp only [TD1.unlockTower]
      rw [if_pos h]
      refine ⟨rfl, rfl, ?_⟩
      simp [List.count_append]
  · intro tt s
    constructor
    · intro h
      simp only [TD2.unlockTower]
      rw [if_neg (by omega)]
    · intro h
      simp only [TD2.unlockTower]
      rw [if_pos h]
      exact ⟨rfl, rfl⟩

/-- Witness for C10 at a concrete input: unlocking the barracks tower
(cost 240) from the initial 250 gold leaves 10 gold and appends the type. -/
theorem claim10_witness :
    (TD1.TOWER_TYPES .barracks).cost * 3 ≤ (TD1.initState none).gold
  ∧ (TD1.unlockTower .barracks (TD1.initState none)).gold
      = (TD1.initState none).gold - (TD1.TOWER_TYPES .barracks).cost * 3 :=
  ⟨by decide, ((claim10_unlock_no_dedup.1 .barracks (TD1.initState none)).2
      (by decide)).1⟩

/-- C7: the wave-advance timeout is not guarded: scheduling it, resetting
the game (which returns the session to wave 0), and letting the queued
callback fire leaves the session at wave 1 while idle. -/
theorem claim7_stale_timer :
    (TD1.resetGame (TD1.waveCheck (TD1.startGame (TD1.initState none)))).wave = 0
  ∧ TD1.staleTimerState.wave = 1
  ∧ TD1.staleTimerState.isPlaying = false
  ∧ TD1.staleTimerState.gameOver = false
  ∧ TD1.Reachable TD1.staleTimerState := by
  refine ⟨rfl, rfl, rfl, rfl, ?_⟩
  exact .timer (.reset (.waveChk (.start (.init none) rfl rfl rfl)))

end Claims


section Claims2

/-- C2 (amended): `handleVictory` records exactly one summary, with result
win, when a wallet is connected, and records nothing when it is not; the
game loop tick (which contains the defeat transition) never records
anything. -/
theorem claim2_recorder_win_only :
    (∀ (a : String) (s : TD1.GameState), s.address = some a →
        (TD1.handleVictory s).records = s.records ++
          [{ wallet := a, result := "win",
             xpEarned := s.xpEarned + 150 + (s.wave : ℤ) * 15,
             wave := s.wave, gold := s.gold, kills := s.totalKills }])
  ∧ (∀ s : TD1.GameState, s.address = none →
        (TD1.handleVictory s).records = s.records)
  ∧ (∀ (sq : ℚ → ℚ) (now : ℤ) (s : TD1.GameState),
        (TD1.tick sq now s).records = s.records) := by
  refine ⟨?_, ?_, ?_⟩
  · intro a s h
    cases hnm : TD1.nextMap s.currentMap <;>
      simp only [TD1.handleVictory, hnm, h] <;> split <;> rfl
  · intro s h
    cases hnm : TD1.nextMap s.currentMap <;>
      simp only [TD1.handleVictory, hnm, h] <;> split <;> rfl
  · intro sq now s
    simp only [TD1.tick]
    split <;> rfl

/-- Counterexample for C2: in the state one life from defeat with a wallet
connected, the defeat tick ends the game but emits no session recording at
all (in particular none with result loss). -/
theorem claim2_counterexample :
    TD1.defeatState.address = some "0xabc"
  ∧ (TD1.tick (fun q => q) 0 TD1.defeatState).gameOver = true
  ∧ (TD1.tick (fun q => q) 0 TD1.defeatState).isPlaying = false
  ∧ (TD1.tick (fun q => q) 0 TD1.defeatState).records = [] := by
  refine ⟨rfl, ?_, ?_, rfl⟩ <;>
    norm_num [TD1.tick, TD1.defeatState, TD1.initState, TD1.endOfPathEnemy,
      TD1.moveAll, TD1.moveOne, TD1.towersStep, TD1.MAPS]

/-- Witness for C2 at a concrete input: a victory with a connected wallet
appends exactly one record. -/
theorem claim2_witness :
    (TD1.handleVictory TD1.winStateWallet).records =
      [{ wallet := "0xw", result := "win", xpEarned := 0 + 150 + (10 : ℤ) * 15,
         wave := 10, gold := 250, kills := 0 }] := by
  have h := claim2_recorder_win_only.1 "0xw" TD1.winStateWallet rfl
  simpa using h

/-- C6: a tower attacks only when the fire-rate window has elapsed; when it
has, the tower stamps lastFired even with no target in range, and otherwise
damages exactly the first enemy in iteration order among those within
Euclidean range. -/
theorem claim6_combat_step :
    ∀ (now : ℤ) (t : TD1.Tower) (es : List TD1.Enemy) (c : TD1.Counters),
      (now - t.lastFired < t.fireRate → TD1.towerStep now t es c = (t, es, c))
    ∧ (t.fireRate ≤ now - t.lastFired →
        (TD1.towerStep now t es c).1 = { t with lastFired := now }
      ∧ ((es.filter (TD1.inRange t)).head? = none →
          (TD1.towerStep now t es c).2.1 = es
        ∧ (TD1.towerStep now t es c).2.2 = c)
      ∧ (∀ e0, (es.filter (TD1.inRange t)).head? = some e0 →
          es.find? (TD1.inRange t) = some e0
        ∧ (TD1.towerStep now t es c).2.1 =
            (TD1.damageTarget t.damage e0.id c es).1.filter
              (fun e => 0 < e.health)
        ∧ (TD1.towerStep now t es c).2.2 =
            (TD1.damageTarget t.damage e0.id c es).2)) := by
  intro now t es c
  constructor
  · intro h
    simp only [TD1.towerStep]
    rw [if_pos h]
  · intro h
    have hn : ¬ (now - t.lastFired < t.fireRate) := by omega
    refine ⟨?_, ?_, ?_⟩
    · simp only [TD1.towerStep]
      rw [if_neg hn]
      cases hh : (es.filter (TD1.inRange t)).head? <;> simp [hh]
    · intro hh
      simp only [TD1.towerStep]
      rw [if_neg hn, hh]
      exact ⟨rfl, rfl⟩
    · intro e0 hh
      refine ⟨by rw [← head_filter_eq_find, hh], ?_, ?_⟩ <;>
        · simp only [TD1.towerStep]
          rw [if_neg hn, hh]

/-- Witness for C6 at a concrete input: at time 1000 the sample archer tower
(fire rate 800, last fired 0) fires at the sample enemy. -/
theorem claim6_witness :
    TD1.sampleTower.fireRate ≤ 1000 - TD1.sampleTower.lastFired
  ∧ (TD1.towerStep 1000 TD1.sampleTower [TD1.sampleEnemy]
       ⟨250, 0, 0, 0, 0⟩).1 = { TD1.sampleTower with lastFired := 1000 } :=
  ⟨by decide, ((claim6_combat_step 1000 TD1.sampleTower [TD1.sampleEnemy]
      ⟨250, 0, 0, 0, 0⟩).2 (by decide)).1⟩

end Claims2


section Claims3

/-- C9: for every wave number at least one, the primary spawner produces
exactly wave*2+5 enemies and the secondary exactly wave*2+3; each enemy has
health baseHealth(type) + wave*10 (20 + wave*10 in the secondary), starts at
the first waypoint of the path with a staggered negative x-offset (50 per
index in the primary, 40 in the secondary), and at path index 0. -/
theorem claim9_spawner (w : ℕ) (hw : 1 ≤ w) (path : List TD1.Point)
    (randIdx : ℕ → ℕ) :
    (TD1.spawnRoster path w randIdx).length = w * 2 + 5
  ∧ (∀ i (h : i < (TD1.spawnRoster path w randIdx).length),
      ((TD1.spawnRoster path w randIdx).get ⟨i, h⟩).health
        = (TD1.baseStats
            ((TD1.spawnRoster path w randIdx).get ⟨i, h⟩).type).health
          + (w : ℤ) * 10
    ∧ ((TD1.spawnRoster path w randIdx).get ⟨i, h⟩).x
        = (path.headD ⟨0, 0⟩).x - (i : ℚ) * 50
    ∧ ((TD1.spawnRoster path w randIdx).get ⟨i, h⟩).y = (path.headD ⟨0, 0⟩).y
    ∧ ((TD1.spawnRoster path w randIdx).get ⟨i, h⟩).pathIndex = 0)
  ∧ (TD2.spawnRoster w).length = w * 2 + 3
  ∧ (∀ i (h : i < (TD2.spawnRoster w).length),
      ((TD2.spawnRoster w).get ⟨i, h⟩).health = 20 + (w : ℤ) * 10
    ∧ ((TD2.spawnRoster w).get ⟨i, h⟩).x
        = (TD2.ENEMY_PATH.headD ⟨0, 0⟩).x - (i : ℚ) * 40
    ∧ ((TD2.spawnRoster w).get ⟨i, h⟩).y = (TD2.ENEMY_PATH.headD ⟨0, 0⟩).y
    ∧ ((TD2.spawnRoster w).get ⟨i, h⟩).pathIndex = 0) := by
  refine ⟨by simp only [TD1.spawnRoster, List.length_map, List.length_range],
    ?_, by simp only [TD2.spawnRoster, List.length_map, List.length_range], ?_⟩
  · intro i h
    simp only [TD1.spawnRoster, List.get_eq_getElem, List.getElem_map,
      List.getElem_range]
    refine ⟨?_, ?_, ?_, ?_⟩ <;> trivial
  · intro i h
    simp only [TD2.spawnRoster, List.get_eq_getElem, List.getElem_map,
      List.getElem_range]
    refine ⟨?_, ?_, ?_, ?_⟩ <;> trivial

/-- Witness for C9 at the concrete scenario of the spec: wave 1 in the
primary implementation spawns 7 enemies, the first a goblin with health 40
(baseHealth 30 + 10). -/
theorem claim9_witness :
    (1 : ℕ) ≤ 1
  ∧ (TD1.spawnRoster (TD1.MAPS .greenlands).path 1 (fun _ => 0)).length = 7
  ∧ (TD2.spawnRoster 1).length = 5 :=
  ⟨le_refl 1,
   (claim9_spawner 1 (le_refl 1) (TD1.MAPS .greenlands).path
      (fun _ => 0)).1,
   (claim9_spawner 1 (le_refl 1) (TD1.MAPS .greenlands).path
      (fun _ => 0)).2.2.1⟩

end Claims3


section Claims4

/-- Helper: the scalar outcomes of the primary `handleVictory`, across the
wallet and next-map branches. -/
theorem TD1.handleVictory_fields (s : TD1.GameState) :
    (TD1.handleVictory s).victory = true
  ∧ (TD1.handleVictory s).gameOver = true
  ∧ (TD1.handleVictory s).isPlaying = false
  ∧ (TD1.handleVictory s).xpEarned = s.xpEarned + 150 + (s.wave : ℤ) * 15 := by
  cases ha : s.address <;> cases hnm : TD1.nextMap s.currentMap <;>
    simp only [TD1.handleVictory, ha, hnm] <;>
    first
      | exact ⟨trivial, trivial, trivial, trivial⟩
      | (split <;> exact ⟨rfl, rfl, rfl, rfl⟩)

/-- Helper: the unlocked-map list produced by the primary `handleVictory`. -/
theorem TD1.handleVictory_unlockedMaps (s : TD1.GameState) (nm : TD1.MapId)
    (hnm : TD1.nextMap s.currentMap = some nm) :
    (nm ∉ s.unlockedMaps →
      (TD1.handleVictory s).unlockedMaps = s.unlockedMaps ++ [nm])
  ∧ (nm ∈ s.unlockedMaps →
      (TD1.handleVictory s).unlockedMaps = s.unlockedMaps) := by
  constructor <;> intro hmem <;> cases ha : s.address <;>
    simp [TD1.handleVictory, hnm, hmem, ha]

/-- C8 (amended): in the primary implementation, clearing the final wave
while playing hands victory: the session stops with the victory flag set,
experience becomes prior + 150 + wave * 15, and the next map in catalog
order is unlocked idempotently. In the secondary implementation victory
awards prior + 100 + wave * 10 and unlocks nothing: its map-unlock flags
are static, so forest stays the only available map. -/
theorem claim8_victory (s : TD1.GameState)
    (hp : s.isPlaying = true) (he : s.enemies = [])
    (hw : (TD1.MAPS s.currentMap).waves ≤ s.wave) (hw0 : 0 < s.wave) :
    TD1.waveCheck s = TD1.handleVictory s
  ∧ (TD1.handleVictory s).victory = true
  ∧ (TD1.handleVictory s).gameOver = true
  ∧ (TD1.handleVictory s).isPlaying = false
  ∧ (TD1.handleVictory s).xpEarned = s.xpEarned + 150 + (s.wave : ℤ) * 15
  ∧ (∀ nm, TD1.nextMap s.currentMap = some nm →
      (nm ∉ s.unlockedMaps →
        (TD1.handleVictory s).unlockedMaps = s.unlockedMaps ++ [nm])
    ∧ (nm ∈ s.unlockedMaps →
        (TD1.handleVictory s).unlockedMaps = s.unlockedMaps))
  ∧ (∀ s2 : TD2.GameState,
      (TD2.handleVictory s2).xpEarned = s2.xpEarned + 100 + (s2.wave : ℤ) * 10
    ∧ (TD2.handleVictory s2).gameOver = true
    ∧ (TD2.handleVictory s2).isPlaying = false)
  ∧ TD2.availableMaps = [.forest] := by
  obtain ⟨h1, h2, h3, h4⟩ := TD1.handleVictory_fields s
  refine ⟨?_, h1, h2, h3, h4, ?_, ?_, by decide⟩
  · simp [TD1.waveCheck, hp, he, hw, hw0]
  · intro nm hnm
    exact TD1.handleVictory_unlockedMaps s nm hnm
  · intro s2
    cases ha : s2.address <;> simp only [TD2.handleVictory, ha] <;>
      exact ⟨by trivial, by trivial, by trivial⟩

/-- Witness for C8 at a concrete input: winning wave 10 on greenlands sets
victory, awards 300 XP, and unlocks the volcano map. -/
theorem claim8_witness :
    TD1.winState.isPlaying = true
  ∧ (TD1.handleVictory TD1.winState).victory = true
  ∧ (TD1.handleVictory TD1.winState).xpEarned = 0 + 150 + (10 : ℤ) * 15 :=
  ⟨rfl, (claim8_victory TD1.winState rfl rfl (by decide) (by decide)).2.1,
    (claim8_victory TD1.winState rfl rfl (by decide) (by decide)).2.2.2.2.1⟩

/-- Counterexample for C8: in the secondary implementation a completed
victory (wave 10 on forest, wallet connected) records the win but unlocks no
next map - desert is unavailable before and after, map availability being
the static catalog flag. -/
theorem claim8_counterexample :
    (TD2.waveCheck TD2.winState).gameOver = true
  ∧ (TD2.waveCheck TD2.winState).records.length = 1
  ∧ TD2.availableMaps = [.forest]
  ∧ TD2.MapId.desert ∉ TD2.availableMaps :=
  ⟨rfl, rfl, by decide, by decide⟩

end Claims4


section Claims7

/-- C3 (amended): over every tick, lives never increase; while playing, a
tick decreases lives by exactly the number of enemies completing the path;
when at least one life remains, the tick ends the session (gameOver set,
playing cleared) exactly when the completions reach the remaining lives;
and once gameOver is set a tick is a no-op, so no further life loss is
processed. -/
theorem claim3_life_conservation :
    (∀ (sq : ℚ → ℚ) (now : ℤ) (s : TD1.GameState),
       (TD1.tick sq now s).lives ≤ s.lives)
  ∧ (∀ (sq : ℚ → ℚ) (now : ℤ) (s : TD1.GameState),
       s.isPlaying = true → s.gameOver = false →
       (TD1.tick sq now s).lives
         = s.lives - (TD1.completedCount (TD1.MAPS s.currentMap).path
             s.enemies : ℤ))
  ∧ (∀ (sq : ℚ → ℚ) (now : ℤ) (s : TD1.GameState),
       s.isPlaying = true → s.gameOver = false → 1 ≤ s.lives →
       (((TD1.tick sq now s).gameOver = true) ↔
         s.lives ≤ (TD1.completedCount (TD1.MAPS s.currentMap).path
           s.enemies : ℤ))
     ∧ (((TD1.tick sq now s).isPlaying = true) ↔
         ¬ s.lives ≤ (TD1.completedCount (TD1.MAPS s.currentMap).path
           s.enemies : ℤ)))
  ∧ (∀ (sq : ℚ → ℚ) (now : ℤ) (s : TD1.GameState),
       s.gameOver = true → TD1.tick sq now s = s) := by
  have hrun : ∀ (sq : ℚ → ℚ) (now : ℤ) (s : TD1.GameState),
      s.isPlaying = true → s.gameOver = false →
      (TD1.tick sq now s).lives
        = (TD1.moveAll sq (TD1.MAPS s.currentMap).path s.enemies s.lives
            s.gameOver s.isPlaying).2.1
    ∧ (TD1.tick sq now s).gameOver
        = (TD1.moveAll sq (TD1.MAPS s.currentMap).path s.enemies s.lives
            s.gameOver s.isPlaying).2.2.1
    ∧ (TD1.tick sq now s).isPlaying
        = (TD1.moveAll sq (TD1.MAPS s.currentMap).path s.enemies s.lives
            s.gameOver s.isPlaying).2.2.2 := by
    intro sq now s hp hg
    simp only [TD1.tick, if_pos (And.intro hp hg)]
    refine ⟨?_, ?_, ?_⟩ <;> trivial
  refine ⟨?_, ?_, ?_, ?_⟩
  · intro sq now s
    by_cases hguard : s.isPlaying = true ∧ s.gameOver = false
    · rw [(hrun sq now s hguard.1 hguard.2).1, TD1.moveAll_lives]
      have := Int.ofNat_nonneg (TD1.completedCount
        (TD1.MAPS s.currentMap).path s.enemies)
      omega
    · simp only [TD1.tick, if_neg hguard]
      exact le_rfl
  · intro sq now s hp hg
    rw [(hrun sq now s hp hg).1, TD1.moveAll_lives]
  · intro sq now s hp hg hl
    constructor
    · rw [(hrun sq now s hp hg).2.1, (TD1.moveAll_flags sq _ s.enemies s.lives
        s.gameOver s.isPlaying).1, hg]
      constructor
      · rintro (h | ⟨h1, h2⟩)
        · simp at h
        · exact h2
      · intro h
        right
        constructor
        · have : (0 : ℤ) < (TD1.completedCount (TD1.MAPS s.currentMap).path
            s.enemies : ℤ) := by omega
          exact_mod_cast this
        · exact h
    · rw [(hrun sq now s hp hg).2.2, (TD1.moveAll_flags sq _ s.enemies s.lives
        s.gameOver s.isPlaying).2, hp]
      constructor
      · rintro ⟨-, h⟩ hle
        apply h
        constructor
        · have : (0 : ℤ) < (TD1.completedCount (TD1.MAPS s.currentMap).path
            s.enemies : ℤ) := by omega
          exact_mod_cast this
        · exact hle
      · intro h
        refine ⟨rfl, fun hc => h hc.2⟩
  · intro sq now s hg
    have : ¬ (s.isPlaying = true ∧ s.gameOver = false) := by
      rintro ⟨-, h⟩
      rw [hg] at h
      exact Bool.noConfusion h
    simp only [TD1.tick, if_neg this]

/-- Counterexample for C3: from a session state with one life left and two
enemies completing the path on the same tick, the tick drives lives to -1:
each completion decrements unconditionally, so lives goes negative. -/
theorem claim3_counterexample :
    TD1.doubleLossState.lives = 1
  ∧ (TD1.tick (fun q => q) 0 TD1.doubleLossState).lives = -1
  ∧ (TD1.tick (fun q => q) 0 TD1.doubleLossState).gameOver = true := by
  refine ⟨rfl, ?_, ?_⟩ <;>
    norm_num [TD1.tick, TD1.doubleLossState, TD1.initState, TD1.endOfPathEnemy,
      TD1.moveAll, TD1.moveOne, TD1.towersStep, TD1.MAPS]

/-- Witness for C3 at a concrete input: the first tick after starting a game
(no enemies yet) keeps all 20 lives. -/
theorem claim3_witness :
    (TD1.tick (fun q => q) 5 (TD1.startGame (TD1.initState none))).lives
      = (TD1.startGame (TD1.initState none)).lives
        - (TD1.completedCount
            (TD1.MAPS (TD1.startGame (TD1.initState none)).currentMap).path
            (TD1.startGame (TD1.initState none)).enemies : ℤ) :=
  claim3_life_conservation.2.1 (fun q => q) 5 _ rfl rfl

end Claims7


section ClaimsC45

/-- C4 (amended): in every reachable session state, gold equals the initial
250 minus tower purchases minus unlock purchases plus kill rewards, and is
never negative; a placement whose cost exceeds current gold is rejected with
the state (hence gold) unchanged. -/
theorem claim4_gold_conservation :
    (∀ s : TD1.GameState, TD1.Reachable s →
       s.gold = 250 - s.spentOnTowers - s.spentOnUnlocks + s.earnedRewards
     ∧ 0 ≤ s.gold)
  ∧ (∀ (s : TD1.GameState) (x y : ℚ) (tt : TD1.TowerType),
       s.selectedTower = some tt → s.gold < (TD1.TOWER_TYPES tt).cost →
       TD1.placeTower x y s = s) := by
  constructor
  · intro s h
    obtain ⟨a1, a2, -⟩ := TD1.reachable_accInv h
    exact ⟨a1, a2⟩
  · intro s x y tt hsel hgold
    simp only [TD1.placeTower, hsel]
    split_ifs <;> rfl

/-- Counterexample for C4: unlocking the barracks tower spends 240 gold that
the claimed equation (which only subtracts tower purchase costs) does not
account for: gold is 10, but initial minus purchases plus rewards is 250. -/
theorem claim4_counterexample :
    TD1.Reachable TD1.unlockOnlyState
  ∧ TD1.unlockOnlyState.gold = 10
  ∧ TD1.unlockOnlyState.spentOnTowers = 0
  ∧ TD1.unlockOnlyState.earnedRewards = 0
  ∧ ¬ (TD1.unlockOnlyState.gold
        = 250 - TD1.unlockOnlyState.spentOnTowers
          + TD1.unlockOnlyState.earnedRewards) := by
  refine ⟨?_, rfl, rfl, rfl, by decide⟩
  exact .unlock .barracks (.init none) (by decide)

/-- Witness for C4 at a concrete input: the initial state satisfies the
conservation equation with zero spending and rewards. -/
theorem claim4_witness :
    (TD1.initState none).gold
      = 250 - (TD1.initState none).spentOnTowers
        - (TD1.initState none).spentOnUnlocks
        + (TD1.initState none).earnedRewards
  ∧ 0 ≤ (TD1.initState none).gold :=
  claim4_gold_conservation.1 (TD1.initState none) (.init none)

/-- C5 (amended): in the primary implementation every reachable placed tower
is at least 30 units from every path waypoint (not from every segment
point), and placement is rejected when placement mode is off or the position
is within 30 of a waypoint; the secondary implementation performs no
clearance check at all: an armed, affordable placement succeeds at any
position whatsoever. -/
theorem claim5_placement_clearance :
    (∀ s : TD1.GameState, TD1.Reachable s →
       ∀ t ∈ s.towers, ∀ p ∈ (TD1.MAPS s.currentMap).path,
         900 ≤ TD1.distSq ⟨t.x, t.y⟩ p)
  ∧ (∀ (s : TD1.GameState) (x y : ℚ), s.placementMode = false →
       TD1.placeTower x y s = s)
  ∧ (∀ (s : TD1.GameState) (x y : ℚ),
       TD1.nearPathPoint (TD1.MAPS s.currentMap).path x y = true →
       TD1.placeTower x y s = s)
  ∧ (∀ (s2 : TD2.GameState) (x y : ℚ) (tt : TD2.TowerType),
       s2.selectedTower = some tt → s2.placementMode = true →
       (TD2.TOWER_TYPES tt).cost ≤ s2.gold →
       (TD2.placeTower x y s2).towers = s2.towers ++ [TD2.mkTower tt x y]) := by
  refine ⟨?_, ?_, ?_, ?_⟩
  · intro s h
    exact TD1.reachable_clearInv h
  · intro s x y hmode
    rcases hsel : s.selectedTower with _ | tt
    · simp only [TD1.placeTower, hsel]
    · simp only [TD1.placeTower, hsel, if_pos hmode]
  · intro s x y hnear
    rcases hsel : s.selectedTower with _ | tt
    · simp only [TD1.placeTower, hsel]
    · simp only [TD1.placeTower, hsel]
      split_ifs <;> rfl
  · intro s2 x y tt hsel hmode hgold
    simp only [TD2.placeTower, hsel]
    rw [if_neg (by simp [hmode]), if_neg (by omega)]

/-- Counterexample for C5: selecting the archer tower and clicking the exact
middle of the first greenlands path segment is accepted - the placed tower
sits on the path itself (distance 0 from a segment point), because the
source checks distance to waypoints only, and the midpoint is 60 from each. -/
theorem claim5_counterexample :
    TD1.Reachable TD1.midSegmentPlacement
  ∧ TD1.midSegmentPlacement.towers = [TD1.mkTower .archer 60 180]
  ∧ TD1.midSegmentPlacement.currentMap = .greenlands
  ∧ (TD1.MAPS .greenlands).path.take 2 = [⟨0, 180⟩, ⟨120, 180⟩]
  ∧ TD1.withinSegmentClearance ⟨60, 180⟩ ⟨0, 180⟩ ⟨120, 180⟩ := by
  refine ⟨.place 60 180 (.select .archer (.init none) (by decide)),
    ?_, ?_, rfl, ?_⟩
  · norm_num [TD1.midSegmentPlacement, TD1.placeTower, TD1.selectTower,
      TD1.initState, TD1.nearPathPoint, TD1.TOWER_TYPES, TD1.MAPS,
      TD1.mkTower, List.any_cons, List.any_nil]
  · norm_num [TD1.midSegmentPlacement, TD1.placeTower, TD1.selectTower,
      TD1.initState, TD1.nearPathPoint, TD1.TOWER_TYPES, TD1.MAPS,
      List.any_cons, List.any_nil]
  · refine ⟨⟨60, 180⟩, ⟨1/2, by norm_num, by norm_num, by norm_num,
      by norm_num⟩, ?_⟩
    norm_num [TD1.distSq]

/-- Witness for C5 at a concrete input: with placement mode off, a click
changes nothing. -/
theorem claim5_witness :
    TD1.placeTower 0 0 (TD1.initState none) = TD1.initState none :=
  claim5_placement_clearance.2.1 (TD1.initState none) 0 0 rfl

end ClaimsC45
